import Mathlib

/-!
Shallow embedding of the Theia SCM/Git browser contribution.

The embedding covers:
* `scm-service.ts` (source `part_001`): `ScmInput` (value/issue setters with
  change events), `ScmRepository` (resource list rebuilt from provider groups,
  selection cursor, `selectNextResource` / `selectPreviousResource`) and
  `ScmService.registerScmProvider` together with the `dispose` override it
  installs on the repository it returns.
* `git-contribution.ts` (source `part_000`): `commit`, `addSignOff`, the
  checkout status-bar text computed in `onStart`, `hasConflicts`, `allStaged`,
  and the SCM resource/group command registration tables.

JavaScript specifics are modelled explicitly: number truthiness
(`if (this.selectedIndex)` is `selectedIndex ≠ 0`), string truthiness
(`status.branch ? …` is `branch ≠ undefined ∧ branch ≠ ""`), `||` defaulting,
out-of-range array indexing yielding `undefined`, and `String.prototype.endsWith`
as the list-suffix relation on the string's characters. Event emitters are
modelled by returning the list of events fired (or a `Bool` for a single
emitter); the asynchronous `ScmInput.validate` is modelled by applying the
validator synchronously, which captures its eventual effect on `issue`.
-/

/-- The `type` field of an `ScmInputIssue` (`'info' | 'success' | 'warning' | 'error'`). -/
inductive IssueType where
  | info
  | success
  | warning
  | error
deriving DecidableEq, Repr

/-- `ScmInputIssue`: a validation message together with its severity. -/
structure ScmInputIssue where
  type : IssueType
  message : String
deriving DecidableEq, Repr

/-- The mutable state of an `ScmInput`: its `_value` and `_issue` fields. -/
structure InputState where
  value : String
  issue : Option ScmInputIssue
deriving DecidableEq, Repr

/-- The `issue` setter of `ScmInput`.  The source compares
`JSONExt.deepEqual(this._issue || {}, issue || {})`; on the flat
`ScmInputIssue` records this is structural equality, with `undefined`
(mapped to `{}`) distinct from every issue.  Returns the new state and
whether `onDidChange` fired. -/
def setIssue (s : InputState) (issue : Option ScmInputIssue) : InputState × Bool :=
  if s.issue = issue then (s, false)
  else ({ s with issue := issue }, true)

/-- The `value` setter of `ScmInput`: a no-op on equal strings, otherwise it
updates `_value`, fires `onDidChange` and runs `validate()`, which feeds the
validator's result to the `issue` setter.  The validator of
`ScmInputOptions` is passed as a parameter. -/
def setValue (validator : Option (String → Option ScmInputIssue))
    (s : InputState) (v : String) : InputState × Bool :=
  if s.value = v then (s, false)
  else
    let s1 : InputState := { s with value := v }
    match validator with
    | none => (s1, true)
    | some f => ((setIssue s1 (f v)).1, true)

/-- An `ScmResource`, reduced to an identity (`handle`) sufficient for the
selection bookkeeping; equality models JavaScript object identity as used by
`indexOf`. -/
structure ScmResourceModel where
  handle : Nat
deriving DecidableEq, Repr

/-- The mutable state of an `ScmRepository`: the provider's `groups` (each
group reduced to its `resources` list), the flattened `_resources` list, the
`selectedIndex` cursor and the `input` box state. -/
structure ScmRepositoryState where
  groups : List (List ScmResourceModel)
  resources : List ScmResourceModel
  selectedIndex : Int
  input : InputState
deriving DecidableEq, Repr

/-- The `selectedResource` getter: `this._resources[this.selectedIndex]`,
where a negative or out-of-range index yields `undefined`. -/
def selectedResource (s : ScmRepositoryState) : Option ScmResourceModel :=
  if s.selectedIndex < 0 then none else s.resources.get? s.selectedIndex.toNat

/-- JavaScript `Array.prototype.indexOf`: the first index of `x`, or `-1`. -/
def jsIndexOf (xs : List ScmResourceModel) (x : ScmResourceModel) : Int :=
  match xs.findIdx? (· = x) with
  | some i => (i : Int)
  | none => -1

/-- The `selectedResource` setter: `selectedIndex` becomes
`selectedResource ? this._resources.indexOf(selectedResource) : -1` and
`fireDidChange()` always fires. -/
def setSelectedResource (s : ScmRepositoryState) (r : Option ScmResourceModel) :
    ScmRepositoryState × Bool :=
  ({ s with selectedIndex := match r with
      | some x => jsIndexOf s.resources x
      | none => -1 },
   true)

/-- `updateSelection()`: `this.selectedResource = this.selectedResource`. -/
def updateSelection (s : ScmRepositoryState) : ScmRepositoryState :=
  (setSelectedResource s (selectedResource s)).1

/-- `updateResources()`: rebuild `_resources` as the concatenation of the
provider's groups' resources, then `updateSelection()`. -/
def updateResources (s : ScmRepositoryState) : ScmRepositoryState :=
  updateSelection { s with resources := s.groups.flatten }

/-- The `ScmRepository` constructor: a fresh `ScmInput` (empty value, no
issue), `selectedIndex` initialised to `-1`, then `updateResources()`. -/
def mkScmRepository (groups : List (List ScmResourceModel)) : ScmRepositoryState :=
  updateResources { groups := groups, resources := [], selectedIndex := -1,
                    input := { value := "", issue := none } }

/-- A provider `onDidChange` event with the provider's groups now being
`newGroups`: the registered listener runs `updateResources()`. -/
def providerDidChange (s : ScmRepositoryState) (newGroups : List (List ScmResourceModel)) :
    ScmRepositoryState :=
  updateResources { s with groups := newGroups }

/-- Result of a selection method: the new repository state, whether
`fireDidChange` fired, and the returned resource. -/
structure SelectResult where
  state : ScmRepositoryState
  fired : Bool
  returned : Option ScmResourceModel
deriving DecidableEq, Repr

/-- `selectNextResource()`.  The first guard is
`this.selectedIndex && this.selectedIndex < this._resources.length - 1`
(number truthiness: `selectedIndex ≠ 0`), the second is
`this._resources.length && this.selectedIndex === -1`. -/
def selectNextResource (s : ScmRepositoryState) : SelectResult :=
  if s.selectedIndex ≠ 0 ∧ s.selectedIndex < (s.resources.length : Int) - 1 then
    let s1 := { s with selectedIndex := s.selectedIndex + 1 }
    ⟨s1, true, selectedResource s1⟩
  else if s.resources.length ≠ 0 ∧ s.selectedIndex = -1 then
    let s1 := { s with selectedIndex := 0 }
    ⟨s1, true, selectedResource s1⟩
  else ⟨s, false, selectedResource s⟩

/-- `selectPreviousResource()`.  The guard is `if (this.selectedIndex)`,
i.e. `selectedIndex ≠ 0`. -/
def selectPreviousResource (s : ScmRepositoryState) : SelectResult :=
  if s.selectedIndex ≠ 0 then
    let s1 := { s with selectedIndex := s.selectedIndex - 1 }
    ⟨s1, true, selectedResource s1⟩
  else ⟨s, false, selectedResource s⟩

/-- Setting the repository input's value through the wiring installed by the
`ScmRepository` constructor (`this.input.onDidChange(() => this.fireDidChange())`):
the repository's `onDidChange` fires exactly when the input's does. -/
def repoSetInputValue (validator : Option (String → Option ScmInputIssue))
    (s : ScmRepositoryState) (v : String) : ScmRepositoryState × Bool :=
  let r := setValue validator s.input v
  ({ s with input := r.1 }, r.2)

/-- The state of an `ScmService`: the keys of the `_repositories` map in
insertion order and the id of `_selectedRepository` (repositories are
identified by their provider id, which the map keys them by). -/
structure ScmServiceState where
  repos : List String
  selected : Option String
deriving DecidableEq, Repr

/-- Events fired by `ScmService` emitters. -/
inductive ScmServiceEvent where
  | didAddRepository (id : String)
  | didRemoveRepository (id : String)
  | didChangeSelectedRepository (sel : Option String)
deriving DecidableEq, Repr

/-- `ScmService.registerScmProvider`: throws when the provider id is already
registered (before any mutation), otherwise inserts the new repository,
fires `onDidAddRepository`, and when the map then has size 1 assigns
`selectedRepository` (whose setter fires `onDidChangeSelectedRepository`).
The thrown error is returned as `Except.error` alongside the (unchanged)
state. -/
def registerScmProvider (st : ScmServiceState) (id : String) :
    ScmServiceState × Except String (List ScmServiceEvent) :=
  if st.repos.contains id then
    (st, Except.error ("SCM Provider " ++ id ++ " already exists."))
  else
    let repos1 := st.repos ++ [id]
    if repos1.length = 1 then
      ({ repos := repos1, selected := some id },
       Except.ok [ScmServiceEvent.didAddRepository id,
                  ScmServiceEvent.didChangeSelectedRepository (some id)])
    else
      ({ repos := repos1, selected := st.selected },
       Except.ok [ScmServiceEvent.didAddRepository id])

/-- The `dispose` override installed by `registerScmProvider`: delete the id
from the map, dispose the repository internals, fire `onDidRemoveRepository`,
and when the disposed repository was selected assign the map's first
remaining value (insertion order) — `undefined` when none — through the
`selectedRepository` setter, which fires `onDidChangeSelectedRepository`. -/
def disposeRepository (st : ScmServiceState) (id : String) :
    ScmServiceState × List ScmServiceEvent :=
  let repos1 := st.repos.erase id
  if st.selected = some id then
    ({ repos := repos1, selected := repos1.head? },
     [ScmServiceEvent.didRemoveRepository id,
      ScmServiceEvent.didChangeSelectedRepository repos1.head?])
  else
    ({ repos := repos1, selected := st.selected },
     [ScmServiceEvent.didRemoveRepository id])

/-- `GitFileStatus` enumeration imported from `../common` (its `Conflicted`
member is the only one the embedded code inspects). -/
inductive GitFileStatus where
  | New
  | Copied
  | Modified
  | Renamed
  | Deleted
  | Conflicted
deriving DecidableEq, Repr

/-- A `GitFileChange`, reduced to the fields the embedded code reads:
`status` and the optional `staged` flag (`staged?: boolean`). -/
structure GitFileChange where
  status : GitFileStatus
  staged : Option Bool
deriving DecidableEq, Repr

/-- The fields of a `WorkingDirectoryStatus` read by the status-bar handler:
`branch` and `currentHead` (both `string | undefined`) and `changes`. -/
structure WorkingDirectoryStatus where
  branch : Option String
  currentHead : Option String
  changes : List GitFileChange
deriving DecidableEq, Repr

/-- JavaScript truthiness of a `string | undefined`: `undefined` and the
empty string are falsy. -/
def jsTruthyStr : Option String → Bool
  | some s => !s.isEmpty
  | none => false

/-- JavaScript truthiness of a `boolean | undefined` (`c.staged`). -/
def jsTruthyBool : Option Bool → Bool
  | some b => b
  | none => false

/-- `GitContribution.hasConflicts`:
`changes.some(c => c.status === GitFileStatus.Conflicted)`. -/
def hasConflicts (changes : List GitFileChange) : Bool :=
  changes.any (fun c => c.status = GitFileStatus.Conflicted)

/-- `GitContribution.allStaged`: `!changes.some(c => !c.staged)`. -/
def allStaged (changes : List GitFileChange) : Bool :=
  !changes.any (fun c => !jsTruthyBool c.staged)

/-- The checkout status-bar text computed by the `onGitEvent` handler in
`GitContribution.onStart`:
`branch` is `status.branch ? status.branch : status.currentHead ? status.currentHead.substring(0, 8) : 'NO-HEAD'`
and `dirty` follows the conflict/staged analysis of the change list; the
entry text is `` `$(code-fork) ${branch}${dirty}` ``. -/
def checkoutStatusText (status : WorkingDirectoryStatus) : String :=
  let branch :=
    if jsTruthyStr status.branch then status.branch.getD ""
    else if jsTruthyStr status.currentHead then (status.currentHead.getD "").take 8
    else "NO-HEAD"
  let dirty :=
    if status.changes.length > 0 then
      let conflicts := hasConflicts status.changes
      let staged := allStaged status.changes
      if conflicts || staged then
        if conflicts then "!" else if staged then "+" else ""
      else "*"
    else ""
  "$(code-fork) " ++ branch ++ dirty

/-- Spec-side branch part, written from the claim: the branch name, or the
first 8 characters of the current HEAD, or `NO-HEAD`. -/
def branchTextSpec (status : WorkingDirectoryStatus) : String :=
  match status.branch with
  | some b => b
  | none =>
    match status.currentHead with
    | some h => h.take 8
    | none => "NO-HEAD"

/-- Spec-side dirty marker, written from the claim: empty for no changes,
`!` when some change is conflicted, `+` when no change is conflicted and
every change is staged, `*` otherwise. -/
def dirtyMarkerSpec (changes : List GitFileChange) : String :=
  if changes = [] then ""
  else if ∃ c ∈ changes, c.status = GitFileStatus.Conflicted then "!"
  else if ∀ c ∈ changes, c.staged = some true then "+"
  else "*"

/-- JavaScript `String.prototype.trim` (as used via `message.trim()` and
`result.stdout.trim()`): strip leading and trailing whitespace characters. -/
def jsTrim (s : String) : String :=
  ⟨((s.data.dropWhile Char.isWhitespace).reverse.dropWhile Char.isWhitespace).reverse⟩

/-- The effective commit message:
`options.message || scmRepository.input.value` (the `||` default applies
when `options.message` is `undefined` or empty). -/
def effectiveMessage (optMessage : Option String) (inputValue : String) : String :=
  match optMessage with
  | some m => if m.isEmpty then inputValue else m
  | none => inputValue

/-- The arguments of a `git.commit` invocation:
`this.git.commit(repository, message, { signOff, amend })`. -/
structure GitCommitCall where
  message : String
  signOff : Option Bool
  amend : Option Bool
deriving DecidableEq, Repr

/-- Observable outcome of `GitContribution.commit`: the final input state,
the `git.commit` invocation (or `none` when git was not called) and whether
`input.focus()` was called. -/
structure CommitResult where
  input : InputState
  gitCommit : Option GitCommitCall
  focused : Bool
deriving DecidableEq, Repr

/-- `GitContribution.commit`.  `repoSelected` models whether
`this.repositoryProvider.selectedScmRepository` is defined, `changes` the
change list of `await this.git.status(repository)`, and `gitOk` whether the
`git.commit` call resolves (on rejection the error goes to
`gitErrorHandler.handleError`).  The issue assignments follow the source
order: clear, blank-message check, staged-change check, then either commit
or focus. -/
def commit (repoSelected : Bool) (input : InputState) (changes : List GitFileChange)
    (optMessage : Option String) (signOff amend : Option Bool) (gitOk : Bool) :
    CommitResult :=
  if !repoSelected then ⟨input, none, false⟩
  else
    let message := effectiveMessage optMessage input.value
    let issue1 : Option ScmInputIssue := none
    let issue2 :=
      if jsTrim message = "" then
        some ⟨IssueType.error, "Please provide a commit message"⟩
      else issue1
    let issue3 :=
      if issue2 = none ∧ ¬ changes.any (fun c => c.staged = some true) then
        some ⟨IssueType.error, "No changes added to commit"⟩
      else issue2
    if issue3 = none then
      ⟨⟨if gitOk then "" else input.value, issue3⟩, some ⟨message, signOff, amend⟩, false⟩
    else
      ⟨⟨input.value, issue3⟩, none, true⟩

/-- The sign-off line built by `GitContribution.addSignOff` from the trimmed
stdout of `git config user.name` and `git config user.email`. -/
def signOffText (nameOut emailOut : String) : String :=
  "\n\nSigned-off-by: " ++ jsTrim nameOut ++ " <" ++ jsTrim emailOut ++ ">"

/-- JavaScript `value.endsWith(signOff)`: the suffix relation on the
string's characters. -/
def jsEndsWith (v suffix : String) : Bool :=
  decide (suffix.data <:+ v.data)

/-- JavaScript `value.substr(0, n)`: the first `n` characters. -/
def jsSubstrTo (v : String) (n : Nat) : String :=
  ⟨v.data.take n⟩

/-- `GitContribution.addSignOff` (repository selected): toggles the
sign-off suffix on the input value and focuses the input.  Returns the new
input value and whether `focus()` was called. -/
def addSignOff (nameOut emailOut value : String) : String × Bool :=
  let signOff := signOffText nameOut emailOut
  (if jsEndsWith value signOff then
     jsSubstrTo value (value.length - signOff.length)
   else value ++ signOff,
   true)

/-- A command/group pair registered with an SCM resource or group command
registry. -/
structure ScmCommandItem where
  command : String
  group : String
deriving DecidableEq, Repr

/-- Modelled from the spec: the `ScmResourceCommandRegistry`/
`ScmGroupCommandRegistry` implementations are not part of the sources, so a
registry is modelled as the record of `registerItems(label, items)` calls in
order. -/
def registerItems (registry : List (String × List ScmCommandItem))
    (label : String) (items : List ScmCommandItem) :
    List (String × List ScmCommandItem) :=
  registry ++ [(label, items)]

/-- Command ids from the `GIT_COMMANDS` namespace used by the SCM
resource/group registration tables. -/
def OPEN_CHANGED_FILE_id : String := "git.open.changed.file"

/-- `GIT_COMMANDS.DISCARD.id`. -/
def DISCARD_id : String := "git.discard"

/-- `GIT_COMMANDS.STAGE.id`. -/
def STAGE_id : String := "git.stage"

/-- `GIT_COMMANDS.UNSTAGE.id`. -/
def UNSTAGE_id : String := "git.unstage"

/-- `GIT_COMMANDS.DISCARD_ALL.id`. -/
def DISCARD_ALL_id : String := "git.discard.all"

/-- `GIT_COMMANDS.STAGE_ALL.id`. -/
def STAGE_ALL_id : String := "git.stage.all"

/-- `GIT_COMMANDS.UNSTAGE_ALL.id`. -/
def UNSTAGE_ALL_id : String := "git.unstage.all"

/-- `GitContribution.registerScmResourceCommands` applied to a registry. -/
def registerScmResourceCommands (registry : List (String × List ScmCommandItem)) :
    List (String × List ScmCommandItem) :=
  let r1 := registerItems registry "Changes"
    [⟨OPEN_CHANGED_FILE_id, "navigation"⟩, ⟨DISCARD_id, "navigation"⟩,
     ⟨STAGE_id, "navigation"⟩]
  let r2 := registerItems r1 "Staged changes"
    [⟨OPEN_CHANGED_FILE_id, "navigation"⟩, ⟨UNSTAGE_id, "navigation"⟩]
  registerItems r2 "Merged Changes"
    [⟨OPEN_CHANGED_FILE_id, "navigation"⟩, ⟨DISCARD_id, "navigation"⟩,
     ⟨STAGE_id, "navigation"⟩]

/-- `GitContribution.registerScmGroupCommands` applied to a registry. -/
def registerScmGroupCommands (registry : List (String × List ScmCommandItem)) :
    List (String × List ScmCommandItem) :=
  let r1 := registerItems registry "Changes"
    [⟨DISCARD_ALL_id, "inline"⟩, ⟨STAGE_ALL_id, "inline"⟩]
  let r2 := registerItems r1 "Staged changes" [⟨UNSTAGE_ALL_id, "inline"⟩]
  registerItems r2 "Merged Changes" [⟨STAGE_ALL_id, "inline"⟩]

/-- C10: `GitContribution` registers resource-level commands for exactly the
three group labels `Changes`, `Staged changes` and `Merged Changes` —
open-changed-file, discard, stage (in that order) for `Changes` and for
`Merged Changes`, open-changed-file and unstage for `Staged changes` — and
group-level batch commands discard-all and stage-all for `Changes`,
unstage-all for `Staged changes` and stage-all for `Merged Changes`. -/
theorem registerScmCommands_tables :
    registerScmResourceCommands [] =
      [("Changes", [⟨"git.open.changed.file", "navigation"⟩,
                    ⟨"git.discard", "navigation"⟩,
                    ⟨"git.stage", "navigation"⟩]),
       ("Staged changes", [⟨"git.open.changed.file", "navigation"⟩,
                           ⟨"git.unstage", "navigation"⟩]),
       ("Merged Changes", [⟨"git.open.changed.file", "navigation"⟩,
                           ⟨"git.discard", "navigation"⟩,
                           ⟨"git.stage", "navigation"⟩])] ∧
    registerScmGroupCommands [] =
      [("Changes", [⟨"git.discard.all", "inline"⟩, ⟨"git.stage.all", "inline"⟩]),
       ("Staged changes", [⟨"git.unstage.all", "inline"⟩]),
       ("Merged Changes", [⟨"git.stage.all", "inline"⟩])] :=
  ⟨rfl, rfl⟩

/-- C4: `registerScmProvider` throws `SCM Provider <id> already exists.` on a
duplicate id leaving the state unchanged; otherwise it appends the new
repository, fires `onDidAddRepository`, and selects it (firing
`onDidChangeSelectedRepository`) exactly when it is the only repository
afterwards (that is, when the map was empty before). -/
theorem registerScmProvider_spec (st : ScmServiceState) (id : String) :
    (id ∈ st.repos →
      registerScmProvider st id =
        (st, Except.error ("SCM Provider " ++ id ++ " already exists."))) ∧
    (id ∉ st.repos →
      (registerScmProvider st id).1.repos = st.repos ++ [id] ∧
      ∃ evs, (registerScmProvider st id).2 = Except.ok evs ∧
        (st.repos = [] →
          (registerScmProvider st id).1.selected = some id ∧
          evs = [ScmServiceEvent.didAddRepository id,
                 ScmServiceEvent.didChangeSelectedRepository (some id)]) ∧
        (st.repos ≠ [] →
          (registerScmProvider st id).1.selected = st.selected ∧
          evs = [ScmServiceEvent.didAddRepository id])) := by
  constructor
  · intro hmem
    simp [registerScmProvider, hmem]
  · intro hmem
    by_cases hrep : st.repos = []
    · exact ⟨by simp [registerScmProvider, hmem, hrep],
             [ScmServiceEvent.didAddRepository id,
              ScmServiceEvent.didChangeSelectedRepository (some id)],
             by simp [registerScmProvider, hmem, hrep],
             fun _ => ⟨by simp [registerScmProvider, hmem, hrep], rfl⟩,
             fun hne => absurd hrep hne⟩
    · exact ⟨by simp [registerScmProvider, hmem, hrep],
             [ScmServiceEvent.didAddRepository id],
             by simp [registerScmProvider, hmem, hrep],
             fun heq => absurd heq hrep,
             fun _ => ⟨by simp [registerScmProvider, hmem, hrep], rfl⟩⟩

/-- Witness for `registerScmProvider_spec`: the duplicate case at a concrete
duplicate id, and both fresh-registration cases at concrete states. -/
theorem registerScmProvider_spec_witness :
    registerScmProvider ⟨["git"], some "git"⟩ "git" =
      (⟨["git"], some "git"⟩, Except.error ("SCM Provider " ++ "git" ++ " already exists.")) ∧
    (registerScmProvider ⟨[], none⟩ "git").1.selected = some "git" ∧
    (registerScmProvider ⟨["git"], some "git"⟩ "hg").1.selected = some "git" := by
  refine ⟨(registerScmProvider_spec ⟨["git"], some "git"⟩ "git").1 (by simp), ?_, ?_⟩
  · have h := (registerScmProvider_spec ⟨[], none⟩ "git").2 (by simp)
    exact (h.2.choose_spec.2.1 rfl).1
  · have h := (registerScmProvider_spec ⟨["git"], some "git"⟩ "hg").2 (by simp)
    exact (h.2.choose_spec.2.2 (by simp)).1

/-- C8: the `dispose` override removes the repository from the map and fires
`onDidRemoveRepository`; exactly when the disposed repository was selected,
the selection moves to the first remaining repository in insertion order
(`undefined` when none) and `onDidChangeSelectedRepository` fires. -/
theorem disposeRepository_spec (st : ScmServiceState) (id : String)
    (_h : id ∈ st.repos) :
    (disposeRepository st id).1.repos = st.repos.erase id ∧
    (st.selected = some id →
      (disposeRepository st id).1.selected = (st.repos.erase id).head? ∧
      (disposeRepository st id).2 =
        [ScmServiceEvent.didRemoveRepository id,
         ScmServiceEvent.didChangeSelectedRepository ((st.repos.erase id).head?)]) ∧
    (st.selected ≠ some id →
      (disposeRepository st id).1.selected = st.selected ∧
      (disposeRepository st id).2 = [ScmServiceEvent.didRemoveRepository id]) := by
  by_cases hs : st.selected = some id <;> simp [disposeRepository, hs]

/-- Witness for `disposeRepository_spec`: disposing the selected repository
moves the selection to the first remaining one; disposing an unselected
repository leaves the selection alone. -/
theorem disposeRepository_spec_witness :
    (disposeRepository ⟨["a", "b"], some "a"⟩ "a").1.selected = (["a", "b"].erase "a").head? ∧
    (disposeRepository ⟨["a", "b"], some "b"⟩ "a").1.selected = some "b" := by
  refine ⟨((disposeRepository_spec ⟨["a", "b"], some "a"⟩ "a" (by simp)).2.1 rfl).1, ?_⟩
  exact ((disposeRepository_spec ⟨["a", "b"], some "b"⟩ "a" (by simp)).2.2 (by simp)).1

/-- `jsTruthyBool` is truth exactly on `some true`. -/
theorem jsTruthyBool_eq_true (o : Option Bool) : jsTruthyBool o = true ↔ o = some true := by
  cases o with
  | none => simp [jsTruthyBool]
  | some b => cases b <;> simp [jsTruthyBool]

/-- `hasConflicts` decides the existence of a conflicted change. -/
theorem hasConflicts_iff (changes : List GitFileChange) :
    hasConflicts changes = true ↔ ∃ c ∈ changes, c.status = GitFileStatus.Conflicted := by
  simp [hasConflicts, List.any_eq_true]

/-- `allStaged` decides that every change is staged. -/
theorem allStaged_iff (changes : List GitFileChange) :
    allStaged changes = true ↔ ∀ c ∈ changes, c.staged = some true := by
  simp only [allStaged, Bool.not_eq_true', List.any_eq_false, Bool.not_eq_false]
  constructor
  · intro h c hc
    exact (jsTruthyBool_eq_true c.staged).mp (h c hc)
  · intro h c hc
    exact (jsTruthyBool_eq_true c.staged).mpr (h c hc)

/-- C5: on a Git status event the checkout status-bar text is
`$(code-fork) ` followed by the branch name (or, with no branch, the first 8
characters of the current HEAD, or `NO-HEAD`), followed by the dirty marker
(empty / `!` on a conflict / `+` when everything is staged / `*` otherwise).
The hypotheses rule out the degenerate empty-string `branch` and
`currentHead` values, where JavaScript truthiness and definedness differ. -/
theorem checkoutStatusText_spec (status : WorkingDirectoryStatus)
    (hb : status.branch ≠ some "") (hh : status.currentHead ≠ some "") :
    checkoutStatusText status =
      "$(code-fork) " ++ branchTextSpec status ++ dirtyMarkerSpec status.changes := by
  have hbranch : (if jsTruthyStr status.branch then status.branch.getD ""
      else if jsTruthyStr status.currentHead then (status.currentHead.getD "").take 8
      else "NO-HEAD") = branchTextSpec status := by
    rcases hB : status.branch with _ | b
    · rcases hH : status.currentHead with _ | h
      · simp [jsTruthyStr, branchTextSpec, hB, hH]
      · have hne : ¬ h = "" := fun he => hh (by rw [hH, he])
        simp [jsTruthyStr, branchTextSpec, hB, hH, String.isEmpty_iff, hne]
    · have hne : ¬ b = "" := fun he => hb (by rw [hB, he])
      simp [jsTruthyStr, branchTextSpec, hB, String.isEmpty_iff, hne]
  have hdirty : (if status.changes.length > 0 then
      if hasConflicts status.changes || allStaged status.changes then
        if hasConflicts status.changes then "!"
        else if allStaged status.changes then "+" else ""
      else "*"
    else "") = dirtyMarkerSpec status.changes := by
    by_cases hempty : status.changes = []
    · simp [dirtyMarkerSpec, hempty]
    · have hpos : status.changes.length > 0 := List.length_pos.mpr hempty
      by_cases hconf : hasConflicts status.changes = true
      · simp [dirtyMarkerSpec, hempty, hpos, hconf, (hasConflicts_iff _).mp hconf]
      · by_cases hstag : allStaged status.changes = true
        · have hnc : ¬ ∃ c ∈ status.changes, c.status = GitFileStatus.Conflicted := by
            rw [← hasConflicts_iff]
            simp [hconf]
          have hall := (allStaged_iff status.changes).mp hstag
          simp only [dirtyMarkerSpec, hempty, if_neg hempty, hpos, if_pos hpos, hconf,
                     hstag, if_neg hnc, if_pos hall]
          simp [hconf, hstag]
        · have hnc : ¬ ∃ c ∈ status.changes, c.status = GitFileStatus.Conflicted := by
            rw [← hasConflicts_iff]
            simp [hconf]
          have hns : ¬ ∀ c ∈ status.changes, c.staged = some true := by
            rw [← allStaged_iff]
            simp [hstag]
          simp [dirtyMarkerSpec, hempty, hpos, hconf, hstag, hnc, hns]
  simp only [checkoutStatusText]
  rw [hbranch, hdirty]

/-- Witness for `checkoutStatusText_spec` at a concrete status with a branch
and one staged change. -/
theorem checkoutStatusText_spec_witness :
    checkoutStatusText ⟨some "master", none, [⟨GitFileStatus.Modified, some true⟩]⟩ =
      "$(code-fork) " ++
        branchTextSpec ⟨some "master", none, [⟨GitFileStatus.Modified, some true⟩]⟩ ++
        dirtyMarkerSpec [⟨GitFileStatus.Modified, some true⟩] :=
  checkoutStatusText_spec _ (by decide) (by decide)

/-- C7: `ScmInput.value` is a no-op on an equal string and otherwise updates
the value, fires `onDidChange` (which the owning `ScmRepository` propagates)
and runs the validator, whose result becomes `issue`; `ScmInput.issue` is a
no-op on a deep-equal issue and otherwise updates the issue and fires. -/
theorem scmInput_setters_spec (validator : Option (String → Option ScmInputIssue))
    (s : InputState) (v : String) (i : Option ScmInputIssue) (repo : ScmRepositoryState) :
    (s.value = v → setValue validator s v = (s, false)) ∧
    (s.value ≠ v →
      (setValue validator s v).1.value = v ∧
      (setValue validator s v).2 = true ∧
      (∀ f, validator = some f → (setValue validator s v).1.issue = f v) ∧
      (validator = none → (setValue validator s v).1.issue = s.issue)) ∧
    repoSetInputValue validator repo v =
      ({ repo with input := (setValue validator repo.input v).1 },
       (setValue validator repo.input v).2) ∧
    (s.issue = i → setIssue s i = (s, false)) ∧
    (s.issue ≠ i → setIssue s i = ({ s with issue := i }, true)) := by
  refine ⟨?_, ?_, rfl, ?_, ?_⟩
  · intro h
    simp [setValue, h]
  · intro h
    rcases validator with _ | f
    · simp [setValue, h]
    · refine ⟨?_, ?_, ?_, by simp⟩
      · simp [setValue, h, setIssue]
        split <;> simp
      · simp [setValue, h]
      · intro f2 hf2
        cases hf2
        simp only [setValue, if_neg h]
        by_cases hi : ({ s with value := v } : InputState).issue = f v
        · rw [setIssue, if_pos hi]
          exact hi
        · rw [setIssue, if_neg hi]
  · intro h
    simp [setIssue, h]
  · intro h
    simp [setIssue, h]

/-- Witness for `scmInput_setters_spec`: a no-op equal-value set, a changing
set whose validator result lands in `issue`, and both issue-setter cases. -/
theorem scmInput_setters_spec_witness :
    setValue none ⟨"a", none⟩ "a" = (⟨"a", none⟩, false) ∧
    (setValue (some fun v => if v = "bad" then some ⟨IssueType.error, "nope"⟩ else none)
      ⟨"a", none⟩ "bad").1.issue = some ⟨IssueType.error, "nope"⟩ ∧
    setIssue ⟨"a", none⟩ none = (⟨"a", none⟩, false) ∧
    setIssue ⟨"a", none⟩ (some ⟨IssueType.error, "e"⟩) =
      (⟨"a", some ⟨IssueType.error, "e"⟩⟩, true) := by
  refine ⟨(scmInput_setters_spec none ⟨"a", none⟩ "a" none ⟨[], [], -1, ⟨"", none⟩⟩).1 rfl,
          ?_, ?_, ?_⟩
  · have h := (scmInput_setters_spec
      (some fun v => if v = "bad" then some ⟨IssueType.error, "nope"⟩ else none)
      ⟨"a", none⟩ "bad" none ⟨[], [], -1, ⟨"", none⟩⟩).2.1 (by decide)
    exact (h.2.2.1 _ rfl).trans (by decide)
  · exact (scmInput_setters_spec none ⟨"a", none⟩ "x" none ⟨[], [], -1, ⟨"", none⟩⟩).2.2.2.1 rfl
  · exact (scmInput_setters_spec none ⟨"a", none⟩ "x" (some ⟨IssueType.error, "e"⟩)
      ⟨[], [], -1, ⟨"", none⟩⟩).2.2.2.2 (by decide)

/-- C2 counterexample: with resources `[r0, r1]` and the resource at index 0
selected, `selectNextResource` does not advance to index 1 and fires no
change event, because `if (this.selectedIndex)` is falsy at index 0 —
contradicting the claim that any non-last selected index advances. -/
theorem selectNextResource_claim_cex :
    (selectNextResource ⟨[[⟨0⟩, ⟨1⟩]], [⟨0⟩, ⟨1⟩], 0, ⟨"", none⟩⟩).state.selectedIndex ≠ 1 ∧
    (selectNextResource ⟨[[⟨0⟩, ⟨1⟩]], [⟨0⟩, ⟨1⟩], 0, ⟨"", none⟩⟩).fired = false ∧
    (selectNextResource ⟨[[⟨0⟩, ⟨1⟩]], [⟨0⟩, ⟨1⟩], 0, ⟨"", none⟩⟩).returned = some ⟨0⟩ := by
  decide

/-- C2 as amended: with a non-empty resource list, `selectNextResource`
selects index 0 when nothing is selected, advances from a selected index
`i ≥ 1` that is not the last, and leaves the selection unchanged (returning
the current resource) when the selected index is 0 or the last index. -/
theorem selectNextResource_cases (s : ScmRepositoryState)
    (hne : s.resources ≠ [])
    (hsel : s.selectedIndex = -1 ∨ (0 ≤ s.selectedIndex ∧ s.selectedIndex < s.resources.length)) :
    (s.selectedIndex = -1 →
      (selectNextResource s).state.selectedIndex = 0 ∧
      (selectNextResource s).fired = true ∧
      (selectNextResource s).returned = s.resources.get? 0) ∧
    (1 ≤ s.selectedIndex ∧ s.selectedIndex < (s.resources.length : Int) - 1 →
      (selectNextResource s).state.selectedIndex = s.selectedIndex + 1 ∧
      (selectNextResource s).fired = true ∧
      (selectNextResource s).returned = s.resources.get? (s.selectedIndex + 1).toNat) ∧
    (s.selectedIndex = 0 ∨ s.selectedIndex = (s.resources.length : Int) - 1 →
      (selectNextResource s).state = s ∧
      (selectNextResource s).fired = false ∧
      (selectNextResource s).returned = selectedResource s) := by
  have hlen : 0 < s.resources.length := List.length_pos.mpr hne
  refine ⟨?_, ?_, ?_⟩
  · intro h0
    rw [selectNextResource, if_pos ⟨by omega, by omega⟩]
    refine ⟨by simp [h0], rfl, ?_⟩
    simp [selectedResource, h0]
  · intro h
    rw [selectNextResource, if_pos ⟨by omega, by omega⟩]
    refine ⟨rfl, rfl, ?_⟩
    simp only [selectedResource]
    rw [if_neg (by omega)]
  · intro h
    have hnot1 : ¬ (s.selectedIndex ≠ 0 ∧ s.selectedIndex < (s.resources.length : Int) - 1) := by
      rcases h with h0 | hlast
      · simp [h0]
      · intro ⟨_, hlt⟩
        omega
    have hnot2 : ¬ (s.resources.length ≠ 0 ∧ s.selectedIndex = -1) := by
      intro ⟨_, hm1⟩
      rcases h with h0 | hlast
      · omega
      · rcases hsel with hs1 | ⟨hs2, _⟩ <;> omega
    rw [selectNextResource, if_neg hnot1, if_neg hnot2]
    exact ⟨rfl, rfl, rfl⟩

/-- Witness for `selectNextResource_cases`: from no selection over two
resources, the first resource becomes selected. -/
theorem selectNextResource_cases_witness :
    (selectNextResource ⟨[[⟨0⟩, ⟨1⟩]], [⟨0⟩, ⟨1⟩], -1, ⟨"", none⟩⟩).state.selectedIndex = 0 ∧
    (selectNextResource ⟨[[⟨0⟩, ⟨1⟩]], [⟨0⟩, ⟨1⟩], 1, ⟨"", none⟩⟩).fired = false := by
  refine ⟨((selectNextResource_cases ⟨[[⟨0⟩, ⟨1⟩]], [⟨0⟩, ⟨1⟩], -1, ⟨"", none⟩⟩
      (by decide) (Or.inl rfl)).1 rfl).1, ?_⟩
  exact ((selectNextResource_cases ⟨[[⟨0⟩, ⟨1⟩]], [⟨0⟩, ⟨1⟩], 1, ⟨"", none⟩⟩
      (by decide) (Or.inr (by decide))).2.2 (Or.inr (by decide))).2.1

/-- C3 counterexample: with no resource selected (`selectedIndex = -1`),
`selectPreviousResource` fires a change event and moves the internal index
to `-2`, because `if (this.selectedIndex)` is truthy at `-1` — contradicting
the claim that the state is unchanged and no event fires. -/
theorem selectPreviousResource_claim_cex :
    (selectPreviousResource ⟨[[⟨0⟩]], [⟨0⟩], -1, ⟨"", none⟩⟩).fired = true ∧
    (selectPreviousResource ⟨[[⟨0⟩]], [⟨0⟩], -1, ⟨"", none⟩⟩).state.selectedIndex = -2 := by
  decide

/-- C3 as amended: from a selected index `i > 0`, `selectPreviousResource`
selects index `i - 1`, fires, and returns that resource; at index 0 it is a
complete no-op returning the first resource; with no selection it fires a
change event and returns `undefined`, the selected resource staying
`undefined` (while the internal index decreases below `-1`). -/
theorem selectPreviousResource_cases (s : ScmRepositoryState)
    (_hsel : s.selectedIndex = -1 ∨ (0 ≤ s.selectedIndex ∧ s.selectedIndex < s.resources.length)) :
    (0 < s.selectedIndex →
      (selectPreviousResource s).state.selectedIndex = s.selectedIndex - 1 ∧
      (selectPreviousResource s).fired = true ∧
      (selectPreviousResource s).returned = s.resources.get? (s.selectedIndex - 1).toNat) ∧
    (s.selectedIndex = 0 →
      selectPreviousResource s = ⟨s, false, s.resources.get? 0⟩) ∧
    (s.selectedIndex = -1 →
      (selectPreviousResource s).fired = true ∧
      (selectPreviousResource s).returned = none ∧
      selectedResource (selectPreviousResource s).state = none) := by
  refine ⟨?_, ?_, ?_⟩
  · intro h
    rw [selectPreviousResource, if_pos (by omega)]
    refine ⟨rfl, rfl, ?_⟩
    simp only [selectedResource]
    rw [if_neg (by omega)]
  · intro h0
    rw [selectPreviousResource, if_neg (by omega)]
    simp only [selectedResource]
    rw [if_neg (by omega), h0]
    rfl
  · intro hm1
    rw [selectPreviousResource, if_pos (by omega)]
    refine ⟨rfl, ?_, ?_⟩ <;>
      · simp only [selectedResource]
        rw [if_pos (by omega)]

/-- Witness for `selectPreviousResource_cases`: moving back from index 1
selects index 0; at index 0 nothing changes. -/
theorem selectPreviousResource_cases_witness :
    (selectPreviousResource ⟨[[⟨0⟩, ⟨1⟩]], [⟨0⟩, ⟨1⟩], 1, ⟨"", none⟩⟩).state.selectedIndex = 0 ∧
    selectPreviousResource ⟨[[⟨0⟩, ⟨1⟩]], [⟨0⟩, ⟨1⟩], 0, ⟨"", none⟩⟩ =
      ⟨⟨[[⟨0⟩, ⟨1⟩]], [⟨0⟩, ⟨1⟩], 0, ⟨"", none⟩⟩, false, some ⟨0⟩⟩ := by
  constructor
  · exact ((selectPreviousResource_cases ⟨[[⟨0⟩, ⟨1⟩]], [⟨0⟩, ⟨1⟩], 1, ⟨"", none⟩⟩
      (Or.inr (by decide))).1 (by decide)).1
  · have h := (selectPreviousResource_cases ⟨[[⟨0⟩, ⟨1⟩]], [⟨0⟩, ⟨1⟩], 0, ⟨"", none⟩⟩
      (Or.inr (by decide))).2.1 rfl
    exact h.trans (by decide)

/-- `scmRepositoryInvariant`: the flattened resource list mirrors the
provider's groups in group order, and the selected resource (when defined)
is an element of that list. -/
def scmRepositoryInvariant (s : ScmRepositoryState) : Prop :=
  s.resources = s.groups.flatten ∧
  ∀ r, selectedResource s = some r → r ∈ s.resources

/-- A defined `selectedResource` is always an element of `resources`. -/
theorem selectedResource_mem (s : ScmRepositoryState) (r : ScmResourceModel)
    (h : selectedResource s = some r) : r ∈ s.resources := by
  unfold selectedResource at h
  by_cases hneg : s.selectedIndex < 0
  · rw [if_pos hneg] at h
    exact absurd h (by simp)
  · rw [if_neg hneg] at h
    exact List.get?_mem h

/-- `selectNextResource` never touches `resources` or `groups`. -/
theorem selectNextResource_preserves (s : ScmRepositoryState) :
    (selectNextResource s).state.resources = s.resources ∧
    (selectNextResource s).state.groups = s.groups := by
  unfold selectNextResource
  split
  · exact ⟨rfl, rfl⟩
  · split
    · exact ⟨rfl, rfl⟩
    · exact ⟨rfl, rfl⟩

/-- `selectPreviousResource` never touches `resources` or `groups`. -/
theorem selectPreviousResource_preserves (s : ScmRepositoryState) :
    (selectPreviousResource s).state.resources = s.resources ∧
    (selectPreviousResource s).state.groups = s.groups := by
  unfold selectPreviousResource
  split
  · exact ⟨rfl, rfl⟩
  · exact ⟨rfl, rfl⟩

/-- C6: the invariant holds after construction and is preserved by provider
`onDidChange` events (which rebuild the resource list) and by every
selection operation, so `selectedResource` is never a stale resource absent
from the list. -/
theorem scmRepository_invariant_preserved (gs gs2 : List (List ScmResourceModel))
    (s : ScmRepositoryState) (hs : scmRepositoryInvariant s) (r : Option ScmResourceModel) :
    scmRepositoryInvariant (mkScmRepository gs) ∧
    scmRepositoryInvariant (providerDidChange s gs2) ∧
    scmRepositoryInvariant (setSelectedResource s r).1 ∧
    scmRepositoryInvariant (selectNextResource s).state ∧
    scmRepositoryInvariant (selectPreviousResource s).state := by
  refine ⟨⟨rfl, fun x h => selectedResource_mem _ _ h⟩,
          ⟨rfl, fun x h => selectedResource_mem _ _ h⟩,
          ⟨hs.1, fun x h => selectedResource_mem _ _ h⟩, ?_, ?_⟩
  · have hp := selectNextResource_preserves s
    refine ⟨?_, fun x h => selectedResource_mem _ _ h⟩
    rw [hp.1, hp.2]
    exact hs.1
  · have hp := selectPreviousResource_preserves s
    refine ⟨?_, fun x h => selectedResource_mem _ _ h⟩
    rw [hp.1, hp.2]
    exact hs.1

/-- Witness for `scmRepository_invariant_preserved`: the invariant at a
freshly constructed repository and after a provider change on a concrete
state. -/
theorem scmRepository_invariant_witness :
    scmRepositoryInvariant (mkScmRepository [[⟨0⟩]]) ∧
    scmRepositoryInvariant (providerDidChange ⟨[], [], -1, ⟨"", none⟩⟩ [[⟨0⟩, ⟨1⟩]]) := by
  have h0 : scmRepositoryInvariant (⟨[], [], -1, ⟨"", none⟩⟩ : ScmRepositoryState) :=
    ⟨rfl, fun x h => selectedResource_mem _ _ h⟩
  exact ⟨(scmRepository_invariant_preserved [[⟨0⟩]] [[⟨0⟩, ⟨1⟩]] _ h0 none).1,
         (scmRepository_invariant_preserved [[⟨0⟩]] [[⟨0⟩, ⟨1⟩]] _ h0 none).2.1⟩

/-- C1: with no selected repository `commit` changes nothing; with one, a
blanks-only effective message yields the `Please provide a commit message`
error (no `git.commit`, value unchanged, input focused); otherwise, without
a change staged `=== true` it yields the `No changes added to commit` error
(no `git.commit`, focused); otherwise `git.commit` runs with that message
and the given signOff/amend, and on success the input value becomes empty. -/
theorem commit_spec (repoSel : Bool) (input : InputState) (changes : List GitFileChange)
    (optMessage : Option String) (signOff amend : Option Bool) (gitOk : Bool) :
    (repoSel = false →
      commit repoSel input changes optMessage signOff amend gitOk = ⟨input, none, false⟩) ∧
    (repoSel = true →
      (jsTrim (effectiveMessage optMessage input.value) = "" →
        commit repoSel input changes optMessage signOff amend gitOk =
          ⟨⟨input.value, some ⟨IssueType.error, "Please provide a commit message"⟩⟩,
           none, true⟩) ∧
      (jsTrim (effectiveMessage optMessage input.value) ≠ "" →
        (¬ ∃ c ∈ changes, c.staged = some true) →
        commit repoSel input changes optMessage signOff amend gitOk =
          ⟨⟨input.value, some ⟨IssueType.error, "No changes added to commit"⟩⟩,
           none, true⟩) ∧
      (jsTrim (effectiveMessage optMessage input.value) ≠ "" →
        (∃ c ∈ changes, c.staged = some true) →
        (commit repoSel input changes optMessage signOff amend gitOk).gitCommit =
          some ⟨effectiveMessage optMessage input.value, signOff, amend⟩ ∧
        (commit repoSel input changes optMessage signOff amend gitOk).focused = false ∧
        (gitOk = true →
          (commit repoSel input changes optMessage signOff amend gitOk).input.value = ""))) := by
  constructor
  · intro h
    subst h
    rfl
  · intro h
    subst h
    refine ⟨?_, ?_, ?_⟩
    · intro hblank
      simp [commit, hblank]
    · intro hblank hnost
      have hany : changes.any (fun c => c.staged = some true) = false := by
        cases hA : changes.any (fun c => c.staged = some true)
        · rfl
        · exact absurd (by simpa [List.any_eq_true] using hA) hnost
      simp [commit, hblank, hany]
    · intro hblank hst
      have hany : changes.any (fun c => c.staged = some true) = true := by
        simpa [List.any_eq_true] using hst
      simp [commit, hblank, hany]
      intro h1 h2
      rw [h1] at h2
      cases h2

/-- Witness for `commit_spec`: all four cases at concrete inputs. -/
theorem commit_spec_witness :
    commit false ⟨"x", none⟩ [] none none none true = ⟨⟨"x", none⟩, none, false⟩ ∧
    commit true ⟨" ", none⟩ [] none none none true =
      ⟨⟨" ", some ⟨IssueType.error, "Please provide a commit message"⟩⟩, none, true⟩ ∧
    commit true ⟨"msg", none⟩ [⟨GitFileStatus.Modified, some false⟩] none none none true =
      ⟨⟨"msg", some ⟨IssueType.error, "No changes added to commit"⟩⟩, none, true⟩ ∧
    (commit true ⟨"msg", none⟩ [⟨GitFileStatus.Modified, some true⟩]
      none none none true).input.value = "" := by
  refine ⟨(commit_spec false ⟨"x", none⟩ [] none none none true).1 rfl,
          ((commit_spec true ⟨" ", none⟩ [] none none none true).2 rfl).1 (by decide),
          ((commit_spec true ⟨"msg", none⟩ [⟨GitFileStatus.Modified, some false⟩]
            none none none true).2 rfl).2.1 (by decide) (by decide),
          (((commit_spec true ⟨"msg", none⟩ [⟨GitFileStatus.Modified, some true⟩]
            none none none true).2 rfl).2.2 (by decide) (by decide)).2.2 rfl⟩

/-- C9 counterexample: when the input value is exactly the sign-off suffix
twice, the first `addSignOff` removes one copy and the second — rather than
restoring it — removes the other, so two applications do not restore the
original value (user name `a`, email `b`). -/
theorem addSignOff_claim_cex :
    (addSignOff "a" "b" (addSignOff "a" "b"
        (signOffText "a" "b" ++ signOffText "a" "b")).1).1 ≠
      signOffText "a" "b" ++ signOffText "a" "b" := by
  decide

/-- C9 as amended: `addSignOff` toggles the sign-off suffix and focuses the
input on each call, and applying it twice restores the original value
provided the value does not already end with two copies of the suffix
(in that case the second call strips the surviving copy instead of
re-appending). -/
theorem addSignOff_involution (nameOut emailOut value : String)
    (h : jsEndsWith value (signOffText nameOut emailOut ++ signOffText nameOut emailOut) = false) :
    (addSignOff nameOut emailOut (addSignOff nameOut emailOut value).1).1 = value ∧
    (addSignOff nameOut emailOut value).2 = true ∧
    (addSignOff nameOut emailOut (addSignOff nameOut emailOut value).1).2 = true := by
  refine ⟨?_, rfl, rfl⟩
  simp only [jsEndsWith] at h
  rw [decide_eq_false_iff_not] at h
  simp only [addSignOff, jsEndsWith, jsSubstrTo, decide_eq_true_eq]
  revert h
  generalize signOffText nameOut emailOut = S
  intro h
  by_cases hEnd : S.data <:+ value.data
  · rw [if_pos hEnd]
    obtain ⟨t, ht⟩ := hEnd
    have hlen : value.length - S.length = t.length := by
      have h2 : value.data.length = t.length + S.data.length := by
        rw [← ht, List.length_append]
      have h3 : value.length = value.data.length := rfl
      have h4 : S.length = S.data.length := rfl
      omega
    rw [hlen]
    have htake : value.data.take t.length = t := by
      rw [← ht]
      exact List.take_left t S.data
    rw [htake]
    have hdata : (String.mk t).data = t := rfl
    rw [hdata]
    have hnt : ¬ (S.data <:+ t) := by
      rintro ⟨u, hu⟩
      refine h ⟨u, ?_⟩
      rw [String.data_append, ← List.append_assoc, hu, ht]
    rw [if_neg hnt]
    calc (⟨t⟩ : String) ++ S = ⟨t ++ S.data⟩ := rfl
      _ = ⟨value.data⟩ := by rw [ht]
      _ = value := rfl
  · rw [if_neg hEnd]
    have hsuf : S.data <:+ (value ++ S).data := by
      rw [String.data_append]
      exact List.suffix_append value.data S.data
    rw [if_pos hsuf]
    have hlen2 : (value ++ S).length - S.length = value.data.length := by
      have h5 : (value ++ S).length = value.data.length + S.data.length := by
        rw [show (value ++ S).length = (value ++ S).data.length from rfl,
            String.data_append, List.length_append]
      have h4 : S.length = S.data.length := rfl
      omega
    rw [hlen2, String.data_append, List.take_left]

/-- Witness for `addSignOff_involution`: toggling the suffix twice on a
plain value restores it. -/
theorem addSignOff_involution_witness :
    (addSignOff "a" "b" (addSignOff "a" "b" "hello").1).1 = "hello" :=
  (addSignOff_involution "a" "b" "hello" (by decide)).1
